import Mathlib

/-!
Verification development for the mcp-context-proxy repository.

Shallow embedding of the core pipeline components:
retry tracking (src retry-tracker), request routing (src router),
compression strategy detection and the compressor (src/compression/strategy.ts).
Stateful TypeScript classes become explicit state passing; JavaScript `Map`s
become association lists with unique keys; fallible calls (tokenizer,
compression model, upstream connections) become `Except`-valued oracles
passed as parameters.
-/

/-! ## Association-list helpers (embedding of JavaScript `Map`) -/

/-- Lookup in an association list, mirroring `Map.get`. -/
def assocGet {α : Type} (m : List (String × α)) (k : String) : Option α :=
  match m with
  | [] => none
  | (k', v) :: rest => if k' = k then some v else assocGet rest k

/-- Replace-or-append update, mirroring `Map.set`. -/
def assocSet {α : Type} (m : List (String × α)) (k : String) (v : α) :
    List (String × α) :=
  match m with
  | [] => [(k, v)]
  | (k', v') :: rest =>
      if k' = k then (k, v) :: rest else (k', v') :: assocSet rest k v

/-- Key removal, mirroring `Map.delete`. -/
def assocErase {α : Type} (m : List (String × α)) (k : String) :
    List (String × α) :=
  match m with
  | [] => []
  | (k', v') :: rest =>
      if k' = k then rest else (k', v') :: assocErase rest k

/-! ## RetryTracker (embedded from the retry-tracker source file)

Timestamps are milliseconds as integers; `Date.now()` becomes an explicit
`now` argument.  The `calls` map becomes an association list from tool name
to timestamp list, threaded through each method. -/

structure RetryEscalationConfig where
  enabled : Bool
  windowSeconds : Int
  tokenMultiplier : Int
  deriving Repr, DecidableEq

/-- State of a `RetryTracker`: tool name -> array of call timestamps (ms). -/
abbrev RetryCalls := List (String × List Int)

namespace RetryTracker

/-- Embedding of `RetryTracker.recordCall`: append `now` to the tool's list. -/
def recordCall (now : Int) (calls : RetryCalls) (toolName : String) :
    RetryCalls :=
  let existing := (assocGet calls toolName).getD []
  assocSet calls toolName (existing ++ [now])

/-- Embedding of `RetryTracker.getEscalationMultiplier`.  Returns the
multiplier together with the updated state (the source mutates `this.calls`
in place: it prunes the tool's timestamps to the window, deleting the map
entry when none remain). -/
def getEscalationMultiplier (now : Int) (calls : RetryCalls)
    (toolName : String) (config : RetryEscalationConfig) :
    Int × RetryCalls :=
  if !config.enabled then
    (1, calls)
  else
    let windowMs := config.windowSeconds * 1000
    let cutoff := now - windowMs
    let timestamps := (assocGet calls toolName).getD []
    let recentCalls := timestamps.filter (fun ts => cutoff < ts)
    let calls' :=
      if recentCalls.length ≠ timestamps.length then
        if recentCalls.length = 0 then assocErase calls toolName
        else assocSet calls toolName recentCalls
      else calls
    let callCount : Int := recentCalls.length
    if callCount ≤ 1 then
      (1, calls')
    else
      (1 + (config.tokenMultiplier - 1) * (callCount - 1), calls')

/-- Embedding of `RetryTracker.cleanup`. -/
def cleanup (now : Int) (calls : RetryCalls) (maxWindowSeconds : Int) :
    RetryCalls :=
  let cutoff := now - maxWindowSeconds * 1000
  (calls.map (fun p => (p.1, p.2.filter (fun ts => cutoff < ts)))).filter
    (fun p => p.2.length ≠ 0)

/-- Embedding of `RetryTracker.reset`. -/
def reset (_calls : RetryCalls) : RetryCalls := []

/-- Embedding of `RetryTracker.getStats`: tool count and total call count. -/
def getStats (calls : RetryCalls) : Int × Int :=
  (calls.length, calls.foldl (fun acc p => acc + p.2.length) 0)

end RetryTracker

/-! ## Protocol data model

JSON-like argument values restricted to the shapes the routing layer
inspects; tool results as lists of content parts with an error flag. -/

inductive Value where
  | str (s : String)
  | num (n : Int)
  | bool (b : Bool)
  | null
  deriving Repr, DecidableEq

/-- Tool-call arguments: a JavaScript object embedded as an association
list with first-occurrence lookup semantics. -/
abbrev Args := List (String × Value)

inductive ContentPart where
  | text (s : String)
  | other (tag : String)
  deriving Repr, DecidableEq

structure CallToolResult where
  content : List ContentPart
  isError : Bool
  deriving Repr, DecidableEq

/-- The not-found tool result both routers synthesize. -/
def toolNotFoundResult (name : String) : CallToolResult :=
  { content := [ContentPart.text ("Error: Tool '" ++ name ++ "' not found")],
    isError := true }

/-- The error-flagged result synthesized when an upstream tool call throws. -/
def toolCallErrorResult (msg : String) : CallToolResult :=
  { content := [ContentPart.text ("Error calling tool: " ++ msg)],
    isError := true }

/-! ## Router (embedded from the router source file)

The Aggregator's routing table becomes a lookup oracle; the resolved
upstream connection's fallible call methods become `Except`-valued
functions (a thrown error is `Except.error` carrying its message). -/

structure ToolRouting where
  clientId : String
  originalName : String
  call : String → Args → Except String CallToolResult

structure ResourceRouting (ρ : Type) where
  clientId : String
  originalUri : String
  call : String → Except String ρ

structure PromptRouting (ρ : Type) where
  clientId : String
  originalName : String
  call : String → Option (List (String × String)) → Except String ρ

namespace Router

/-- Embedding of `Router.callTool`: resolve the public name, forward the
call, and convert any outcome into a `CallToolResult` (never throws). -/
def callTool (findTool : String → Option ToolRouting)
    (namespacedName : String) (args : Args) : CallToolResult :=
  match findTool namespacedName with
  | none => toolNotFoundResult namespacedName
  | some routing =>
      match routing.call routing.originalName args with
      | .ok result => result
      | .error e => toolCallErrorResult e

/-- Embedding of `Router.readResource`: throws when the URI does not
resolve, and re-throws any upstream error. -/
def readResource {ρ : Type}
    (findResource : String → Option (ResourceRouting ρ))
    (namespacedUri : String) : Except String ρ :=
  match findResource namespacedUri with
  | none => .error ("Resource '" ++ namespacedUri ++ "' not found")
  | some routing =>
      match routing.call routing.originalUri with
      | .ok result => .ok result
      | .error e => .error e

/-- Embedding of `Router.getPrompt`: throws when the name does not
resolve, and re-throws any upstream error. -/
def getPrompt {ρ : Type}
    (findPrompt : String → Option (PromptRouting ρ))
    (namespacedName : String)
    (args : Option (List (String × String))) : Except String ρ :=
  match findPrompt namespacedName with
  | none => .error ("Prompt '" ++ namespacedName ++ "' not found")
  | some routing =>
      match routing.call routing.originalName args with
      | .ok result => .ok result
      | .error e => .error e

end Router

/-! ## Orchestrating Router with control-field extraction

Modelled from the spec: the full `Router.callTool` orchestration layer
(reserved control-field extraction, hidden-tool policy gate, parameter
overrides, optional masking) is not among the provided source files —
only its test suite is — so it is modelled here from the spec's §4.2
algorithm, step by step.  Policy Resolver / Aggregator facets become
oracles (`isToolHidden`, `getParameterOverrides`, `findTool`); the masker
becomes an optional function (absent both when no masker is attached and
when masking is disabled for the tool). -/

namespace SpecRouter

/-- Reserved goal field name (`Router.GOAL_FIELD`). -/
def GOAL_FIELD : String := "_mcpcp_goal"

/-- Reserved bypass field name (`Router.BYPASS_FIELD`). -/
def BYPASS_FIELD : String := "_mcpcp_bypass"

structure MaskOutcome where
  masked : Args
  wasMasked : Bool
  restorationMap : List (String × String)

/-- Return shape of the orchestrating `callTool`:
`{result, goal?, bypass?, restorationMap?}`. -/
structure RouterCallResult where
  result : CallToolResult
  goal : Option String
  bypass : Bool
  restorationMap : Option (List (String × String))
  deriving Repr, DecidableEq

/-- Modelled from the spec: extract the free-text goal; an invalid
(non-string) value is treated as absent. -/
def extractGoal (args : Args) : Option String :=
  match assocGet args GOAL_FIELD with
  | some (Value.str s) => some s
  | _ => none

/-- Modelled from the spec: extract the bypass flag; an invalid
(non-boolean) value is treated as absent (false). -/
def extractBypass (args : Args) : Bool :=
  match assocGet args BYPASS_FIELD with
  | some (Value.bool b) => b
  | _ => false

/-- Modelled from the spec: both reserved fields are stripped from the
arguments forwarded upstream regardless of whether their types were
valid. -/
def stripReserved (args : Args) : Args :=
  args.filter (fun p => !(p.1 == GOAL_FIELD) && !(p.1 == BYPASS_FIELD))

/-- Modelled from the spec: apply the tool's parameter-override map onto
the arguments, overrides last (JavaScript spread semantics: existing keys
keep their position but take the override's value, new keys append). -/
def applyOverrides (overrides : Args) (args : Args) : Args :=
  overrides.foldl (fun acc p => assocSet acc p.1 p.2) args

/-- The argument set forwarded upstream before masking: reserved fields
stripped, then the override map applied on top. -/
def forwardedArgs (overrides : Args) (args : Args) : Args :=
  applyOverrides overrides (stripReserved args)

/-- Modelled from the spec: the full `callTool` orchestration (spec §4.2
steps 1–7). -/
def callTool (isToolHidden : String → Bool)
    (getParameterOverrides : String → Args)
    (findTool : String → Option ToolRouting)
    (masker : Option (Args → MaskOutcome))
    (namespacedName : String) (args : Args) : RouterCallResult :=
  let goal := extractGoal args
  let bypass := extractBypass args
  if isToolHidden namespacedName then
    { result := toolNotFoundResult namespacedName,
      goal := goal, bypass := bypass, restorationMap := none }
  else
    let withOverrides :=
      forwardedArgs (getParameterOverrides namespacedName) args
    let maskStep :=
      match masker with
      | some mask =>
          let outcome := mask withOverrides
          (outcome.masked,
           if outcome.wasMasked then some outcome.restorationMap else none)
      | none => (withOverrides, none)
    match findTool namespacedName with
    | none =>
        { result := toolNotFoundResult namespacedName,
          goal := goal, bypass := bypass, restorationMap := maskStep.2 }
    | some routing =>
        match routing.call routing.originalName maskStep.1 with
        | .ok result =>
            { result := result, goal := goal, bypass := bypass,
              restorationMap := maskStep.2 }
        | .error e =>
            { result := toolCallErrorResult e, goal := goal,
              bypass := bypass, restorationMap := maskStep.2 }

end SpecRouter

/-! ## JSON validity (embedding of `JSON.parse` success/failure)

`detectStrategy` only observes whether `JSON.parse(content)` throws, so the
embedding is a validator for the JSON grammar accepted by `JSON.parse`:
it returns the unconsumed remainder of a parse, or `none` on a syntax
error.  Recursion through nested values is fueled by the input length. -/

def isJsonWsChar (c : Char) : Bool :=
  c == ' ' || c == '\t' || c == '\n' || c == '\r'

def jsonWs (s : List Char) : List Char := s.dropWhile isJsonWsChar

def isHexDigitChar (c : Char) : Bool :=
  c.isDigit || ('a' ≤ c && c ≤ 'f') || ('A' ≤ c && c ≤ 'F')

/-- Consume a JSON string body (the opening quote already consumed). -/
def parseStringBody : List Char → Option (List Char)
  | [] => none
  | '"' :: rest => some rest
  | '\\' :: e :: rest =>
      if e == '"' || e == '\\' || e == '/' || e == 'b' || e == 'f' ||
          e == 'n' || e == 'r' || e == 't' then parseStringBody rest
      else if e == 'u' then
        match rest with
        | a :: b :: c :: d :: rest' =>
            if isHexDigitChar a && isHexDigitChar b && isHexDigitChar c &&
                isHexDigitChar d then parseStringBody rest'
            else none
        | _ => none
      else none
  | c :: rest => if c.val < 32 then none else parseStringBody rest

/-- Consume `[0-9]+`. -/
def parseDigits : List Char → Option (List Char)
  | c :: rest => if c.isDigit then some (rest.dropWhile Char.isDigit) else none
  | [] => none

/-- Consume the integer part: `0` or `[1-9][0-9]*`. -/
def parseIntPart : List Char → Option (List Char)
  | '0' :: rest => some rest
  | c :: rest => if c.isDigit then some (rest.dropWhile Char.isDigit) else none
  | [] => none

/-- Consume an optional fraction part `.[0-9]+`. -/
def parseFracPart : List Char → Option (List Char)
  | '.' :: rest => parseDigits rest
  | s => some s

/-- Consume an optional exponent part `[eE][+-]?[0-9]+`. -/
def parseExpPart : List Char → Option (List Char)
  | c :: rest =>
      if c == 'e' || c == 'E' then
        let rest' := match rest with
          | s :: r => if s == '+' || s == '-' then r else s :: r
          | [] => []
        parseDigits rest'
      else some (c :: rest)
  | [] => some []

/-- Consume a JSON number `-?(0|[1-9][0-9]*)(.[0-9]+)?([eE][+-]?[0-9]+)?`. -/
def parseNumberBody (s : List Char) : Option (List Char) := do
  let s := match s with | '-' :: r => r | _ => s
  let s ← parseIntPart s
  let s ← parseFracPart s
  parseExpPart s

mutual

/-- Consume one JSON value. -/
def parseValue : Nat → List Char → Option (List Char)
  | 0, _ => none
  | fuel + 1, s =>
      match s with
      | '"' :: r => parseStringBody r
      | '{' :: r =>
          (match jsonWs r with
           | '}' :: r' => some r'
           | r' => parseMemberList fuel r')
      | '[' :: r =>
          (match jsonWs r with
           | ']' :: r' => some r'
           | r' => parseElementList fuel r')
      | 't' :: 'r' :: 'u' :: 'e' :: r => some r
      | 'f' :: 'a' :: 'l' :: 's' :: 'e' :: r => some r
      | 'n' :: 'u' :: 'l' :: 'l' :: r => some r
      | s => parseNumberBody s

/-- Consume a non-empty object member list up to the closing brace. -/
def parseMemberList : Nat → List Char → Option (List Char)
  | 0, _ => none
  | fuel + 1, s =>
      match s with
      | '"' :: r => do
          let r ← parseStringBody r
          let r ← match jsonWs r with
            | ':' :: r' => some (jsonWs r')
            | _ => none
          let r ← parseValue fuel r
          match jsonWs r with
          | ',' :: r' => parseMemberList fuel (jsonWs r')
          | '}' :: r' => some r'
          | _ => none
      | _ => none

/-- Consume a non-empty array element list up to the closing bracket. -/
def parseElementList : Nat → List Char → Option (List Char)
  | 0, _ => none
  | fuel + 1, s => do
      let r ← parseValue fuel s
      match jsonWs r with
      | ',' :: r' => parseElementList fuel (jsonWs r')
      | ']' :: r' => some r'
      | _ => none

end

/-- Whether `JSON.parse` succeeds on the whole input. -/
def jsonParses (content : String) : Bool :=
  match parseValue (content.length + 1) (jsonWs content.toList) with
  | some r => (jsonWs r).isEmpty
  | none => false

/-! ## Regular-expression engine for the code heuristics

A small backtracking matcher over character lists, sufficient for the
fixed patterns of `isCodeLike`: literals, character classes, sequencing,
alternation, star and the zero-width word boundary.  A match state is the
previous character (for `\b`) plus the unconsumed suffix. -/

inductive RE where
  | eps
  | ch (c : Char)
  | cls (p : Char → Bool)
  | seq (a b : RE)
  | alt (a b : RE)
  | star (a : RE)
  | wordB

/-- JavaScript `\w`. -/
def isWordChar (c : Char) : Bool := c.isAlphanum || c == '_'

/-- JavaScript `\s` (whitespace and unicode space separators). -/
def isSpaceChar (c : Char) : Bool :=
  c == ' ' || c == '\t' || c == '\n' || c.val == 11 || c.val == 12 ||
  c == '\r' || c.val == 0x00a0 || c.val == 0x1680 ||
  (0x2000 ≤ c.val && c.val ≤ 0x200a) || c.val == 0x2028 ||
  c.val == 0x2029 || c.val == 0x202f || c.val == 0x205f ||
  c.val == 0x3000 || c.val == 0xfeff

/-- JavaScript `.` without dotall: anything but a line terminator. -/
def isDotChar (c : Char) : Bool :=
  !(c == '\n' || c == '\r' || c.val == 0x2028 || c.val == 0x2029)

/-- Iterate a star body: keep the current state and, wherever the body
consumed at least one character, continue the iteration. -/
def starLoop
    (step : Option Char → List Char → List (Option Char × List Char)) :
    Nat → Option Char → List Char → List (Option Char × List Char)
  | 0, prev, s => [(prev, s)]
  | n + 1, prev, s =>
      (prev, s) ::
      ((step prev s).filter (fun st => st.2.length < s.length)).flatMap
        (fun st => starLoop step n st.1 st.2)

/-- All states reachable by matching `re` at the start of `s`. -/
def matchRE (re : RE) (prev : Option Char) (s : List Char) :
    List (Option Char × List Char) :=
  match re with
  | .eps => [(prev, s)]
  | .ch c =>
      match s with
      | [] => []
      | x :: xs => if x == c then [(some x, xs)] else []
  | .cls p =>
      match s with
      | [] => []
      | x :: xs => if p x then [(some x, xs)] else []
  | .wordB =>
      let left := match prev with | some c => isWordChar c | none => false
      let right := match s with | x :: _ => isWordChar x | [] => false
      if left != right then [(prev, s)] else []
  | .seq a b =>
      (matchRE a prev s).flatMap (fun st => matchRE b st.1 st.2)
  | .alt a b => matchRE a prev s ++ matchRE b prev s
  | .star a => starLoop (matchRE a) (s.length + 1) prev s

/-- Unanchored search from a given state, mirroring `RegExp.test`. -/
def searchFrom (re : RE) (prev : Option Char) (s : List Char) : Bool :=
  !(matchRE re prev s).isEmpty ||
    match s with
    | [] => false
    | x :: xs => searchFrom re (some x) xs

/-- Embedding of `pattern.test(content)`. -/
def searchRE (re : RE) (content : String) : Bool :=
  searchFrom re none content.toList

/-- Literal string pattern. -/
def reStr (t : String) : RE := (t.toList.map RE.ch).foldr RE.seq RE.eps

/-- Sequence of patterns. -/
def reSeq (rs : List RE) : RE := rs.foldr RE.seq RE.eps

/-- Optional pattern `(?:r)?`. -/
def reOpt (r : RE) : RE := RE.alt r RE.eps

/-- One-or-more `r+`. -/
def rePlus (r : RE) : RE := RE.seq r (RE.star r)

/-- Alternation of a list of patterns. -/
def reAltList : List RE → RE
  | [] => RE.eps
  | [r] => r
  | r :: rest => RE.alt r (reAltList rest)

def wsStar : RE := RE.star (RE.cls isSpaceChar)
def wsPlus : RE := rePlus (RE.cls isSpaceChar)
def wordPlus : RE := rePlus (RE.cls isWordChar)
def dotStar : RE := RE.star (RE.cls isDotChar)

/-- The fixed code-heuristic patterns of `isCodeLike`, in source order. -/
def codePatterns : List RE :=
  [ -- function declarations
    reSeq [RE.wordB, reStr "function", wsPlus, wordPlus, wsStar, RE.ch '('],
    reSeq [RE.wordB, reStr "const", wsPlus, wordPlus, wsStar, RE.ch '=',
           wsStar, reOpt (reSeq [reStr "async", wsStar]), RE.ch '('],
    reSeq [RE.wordB, reStr "def", wsPlus, wordPlus, wsStar, RE.ch '('],
    reSeq [RE.wordB, reStr "class", wsPlus, wordPlus],
    -- common syntax
    reSeq [RE.wordB, reStr "import", wsPlus, dotStar, wsPlus, reStr "from",
           wsPlus],
    reSeq [RE.wordB, reStr "require", wsStar, RE.ch '('],
    reSeq [RE.wordB, reStr "export", wsPlus,
           reOpt (reSeq [reStr "default", wsPlus]),
           reAltList [reStr "function", reStr "class", reStr "const",
                      reStr "let", reStr "var"]],
    -- braces and semicolons pattern (multiple occurrences)
    reSeq [RE.cls (fun c => c == '{' || c == '}' || c == ';'), wsStar,
           RE.ch '\n', dotStar,
           RE.cls (fun c => c == '{' || c == '}' || c == ';'), wsStar,
           RE.ch '\n'],
    -- method/property access chains
    reSeq [RE.ch '.', wordPlus, RE.ch '(',
           RE.star (RE.cls (fun c => !(c == ')'))), RE.ch ')',
           RE.ch '.', wordPlus, RE.ch '('],
    -- arrow functions
    reSeq [reStr "=>", wsStar, RE.ch '{'],
    -- type annotations (TypeScript)
    reSeq [RE.ch ':', wsStar,
           reAltList [reStr "string", reStr "number", reStr "boolean",
                      reStr "void", reStr "any", reStr "unknown"],
           RE.wordB] ]

/-- Number of code-heuristic patterns matching the content. -/
def codePatternMatchCount (content : String) : Nat :=
  (codePatterns.filter (fun pattern => searchRE pattern content)).length

/-- Embedding of `isCodeLike`: code when multiple patterns match. -/
def isCodeLike (content : String) : Bool :=
  2 ≤ codePatternMatchCount content

inductive CompressionStrategy where
  | json
  | code
  | default
  deriving Repr, DecidableEq

/-- Embedding of `detectStrategy`: valid JSON wins, then the code
heuristics, then the default strategy. -/
def detectStrategy (content : String) : CompressionStrategy :=
  if jsonParses content then .json
  else if isCodeLike content then .code
  else .default

/-! ## Compression prompts (embedded from `strategy.ts`) -/

/-- Embedding of `getGoalFocusedPrompt`. -/
def getGoalFocusedPrompt (strategy : CompressionStrategy) (content : String)
    (goal : String) (tokenLimit : String)
    (customInstructionBlock : String) : String :=
  let goalBlock := "<goal>\n" ++ goal ++ "\n</goal>"
  let relevanceFilter :=
    "CRITICAL: Extract only information that helps achieve the goal " ++
    "above. Completely omit sections, fields, or details that are " ++
    "irrelevant - they waste tokens and distract from the purpose."
  match strategy with
  | .json =>
      goalBlock ++ "\n\n<document type=\"json\">\n" ++ content ++
      "\n</document>\n\n<task>\nExtract JSON data relevant to the goal.\n\n" ++
      relevanceFilter ++
      "\n\n- Keep structure intact for extracted data\n" ++
      "- Remove irrelevant keys/objects entirely\n" ++
      "- Summarize repeated patterns if relevant" ++
      customInstructionBlock ++ "\n\n" ++ tokenLimit ++
      "\nOutput only the extracted JSON, no explanations.\n</task>"
  | .code =>
      goalBlock ++ "\n\n<document type=\"code\">\n" ++ content ++
      "\n</document>\n\n<task>\nExtract code relevant to the goal.\n\n" ++
      relevanceFilter ++
      "\n\nFor extracted code, preserve:\n" ++
      "- Function/class signatures and parameters\n" ++
      "- Key logic and algorithms\n- Important comments\n" ++
      "- Return types and values\n\n" ++
      "Omit functions, classes, and sections unrelated to the goal." ++
      customInstructionBlock ++ "\n\n" ++ tokenLimit ++
      "\nOutput only the extracted code or summary, no explanations.\n</task>"
  | .default =>
      goalBlock ++ "\n\n<document>\n" ++ content ++
      "\n</document>\n\n<task>\n" ++
      "Extract information from the document that serves the goal.\n\n" ++
      relevanceFilter ++
      "\n\n- Focus on facts, data, and details that help achieve the " ++
      "objective\n" ++
      "- Omit tangential information, background, and unrelated sections\n" ++
      "- Be direct and actionable" ++
      customInstructionBlock ++ "\n\n" ++ tokenLimit ++
      "\nOutput only the extracted information, no explanations.\n</task>"

/-- Embedding of `getCompressionPrompt`. -/
def getCompressionPrompt (strategy : CompressionStrategy) (content : String)
    (maxTokens : Option Nat) (goal : Option String)
    (customInstructions : Option String) : String :=
  let tokenLimit := match maxTokens with
    | some m => "Keep your response under " ++ toString m ++ " tokens."
    | none => "Be concise while retaining helpful details."
  let customInstructionBlock := match customInstructions with
    | some ci => "\nADDITIONAL INSTRUCTIONS: " ++ ci
    | none => ""
  match goal with
  | some g => getGoalFocusedPrompt strategy content g tokenLimit
      customInstructionBlock
  | none =>
    match strategy with
    | .json =>
        "<document type=\"json\">\n" ++ content ++
        "\n</document>\n\n<task>\n" ++
        "Compress the JSON above while preserving structure and " ++
        "important values. Remove redundant whitespace, shorten keys if " ++
        "possible, and summarize repeated patterns." ++
        customInstructionBlock ++ "\n\n" ++ tokenLimit ++
        "\nOutput only the compressed JSON, no explanations.\n</task>"
    | .code =>
        "<document type=\"code\">\n" ++ content ++
        "\n</document>\n\n<task>\nSummarize the code above while " ++
        "preserving:\n- Function/class signatures and parameters\n" ++
        "- Key logic and algorithms\n- Important comments\n" ++
        "- Return types and values\n\n" ++
        "Remove non-critical implementation details." ++
        customInstructionBlock ++ "\n\n" ++ tokenLimit ++
        "\nOutput only the summarized code or pseudocode, no " ++
        "explanations.\n</task>"
    | .default =>
        "<document>\n" ++ content ++ "\n</document>\n\n<task>\n" ++
        "Summarize the document above while preserving all important " ++
        "information, facts, and data. Remove redundancy and verbose " ++
        "language. " ++
        customInstructionBlock ++ "\n\n" ++ tokenLimit ++
        "\nOutput only the compressed text, no explanations.\n</task>"

/-! ## Compressor (embedded from the compressor source)

The external tokenizer (`encode` from gpt-tokenizer) and the compression
model (`generateText`) become `Except`-valued oracles; a thrown error is
`Except.error` carrying the message. -/

/-- The external tokenizer: token sequence, or a thrown error. -/
abbrev Tokenizer := String → Except String (List Nat)

/-- The external compression model: prompt and max-output-token bound to
generated text, or a thrown error. -/
abbrev ModelClient := String → Option Nat → Except String String

structure CompressionConfig where
  tokenThreshold : Nat
  maxOutputTokens : Option Nat

structure CompressionResult where
  original : String
  compressed : String
  strategy : CompressionStrategy
  originalTokens : Nat
  compressedTokens : Nat
  wasCompressed : Bool
  deriving Repr, DecidableEq

namespace Compressor

/-- Embedding of `Compressor.countTokens`: `return encode(text).length` —
a tokenizer failure propagates to the caller. -/
def countTokens (encode : Tokenizer) (text : String) : Except String Nat :=
  (encode text).map List.length

/-- Embedding of `Compressor.compress`.  The initial token count happens
before the `try` block (its failure propagates); the model call and the
token count of the model output happen inside it (their failure yields
the original content, `wasCompressed=false`). -/
def compress (encode : Tokenizer) (model : ModelClient)
    (config : CompressionConfig) (content : String) :
    Except String CompressionResult :=
  match countTokens encode content with
  | .error e => .error e
  | .ok originalTokens =>
    if originalTokens ≤ config.tokenThreshold then
      .ok { original := content, compressed := content,
            strategy := .default, originalTokens := originalTokens,
            compressedTokens := originalTokens, wasCompressed := false }
    else
      let strategy := detectStrategy content
      let attempt : Except String (String × Nat) := do
        let text ← model
          (getCompressionPrompt strategy content config.maxOutputTokens
            none none)
          config.maxOutputTokens
        let compressedTokens ← countTokens encode text
        pure (text, compressedTokens)
      match attempt with
      | .ok (text, compressedTokens) =>
          .ok { original := content, compressed := text,
                strategy := strategy, originalTokens := originalTokens,
                compressedTokens := compressedTokens, wasCompressed := true }
      | .error _ =>
          .ok { original := content, compressed := content,
                strategy := strategy, originalTokens := originalTokens,
                compressedTokens := originalTokens, wasCompressed := false }

/-- Whether a content part is text-typed. -/
def isTextPart : ContentPart → Bool
  | .text _ => true
  | .other _ => false

/-- Text of a content part (text parts only). -/
def partText : ContentPart → String
  | .text s => s
  | .other _ => ""

/-- Embedding of the `seenText`-set filter at the end of
`compressToolResult`: keep the first text part, drop every later text
part, keep non-text parts. -/
def dedupTextContent (seen : Bool) : List ContentPart → List ContentPart
  | [] => []
  | c :: rest =>
      match c with
      | .text _ =>
          if seen then dedupTextContent true rest
          else c :: dedupTextContent true rest
      | .other _ => c :: dedupTextContent seen rest

/-- Embedding of `Compressor.compressToolResult`. -/
def compressToolResult (encode : Tokenizer) (model : ModelClient)
    (config : CompressionConfig) (result : CallToolResult) :
    Except String CallToolResult :=
  let textContents := result.content.filter isTextPart
  if textContents.isEmpty then .ok result
  else
    let combinedText := String.intercalate "\n" (textContents.map partText)
    match countTokens encode combinedText with
    | .error e => .error e
    | .ok tokenCount =>
      if tokenCount ≤ config.tokenThreshold then .ok result
      else
        match compress encode model config combinedText with
        | .error e => .error e
        | .ok compressed =>
          if !compressed.wasCompressed then .ok result
          else
            let newContent := result.content.map (fun c =>
              if isTextPart c then ContentPart.text compressed.compressed
              else c)
            .ok { result with content := dedupTextContent false newContent }

end Compressor

/-! ## Claim-side descriptions used for refinement statements -/

/-- Character-list prefix test. -/
def listHasPrefix : List Char → List Char → Bool
  | [], _ => true
  | _ :: _, [] => false
  | n :: ns, h :: hs => n == h && listHasPrefix ns hs

/-- Character-list substring test. -/
def listContainsSub (needle : List Char) : List Char → Bool
  | [] => listHasPrefix needle []
  | h :: hs => listHasPrefix needle (h :: hs) || listContainsSub needle hs

/-- Substring test (used to state the absence of the
"compressed from X to Y tokens" annotation). -/
def strContains (haystack needle : String) : Bool :=
  listContainsSub needle.toList haystack.toList

/-- Claim-side description of the compressed tool-result content: the
first text part becomes the compressed text, every later text part is
dropped, non-text parts are preserved in place. -/
def replaceFirstText (t : String) : List ContentPart → List ContentPart
  | [] => []
  | ContentPart.text _ :: rest =>
      ContentPart.text t :: rest.filter (fun c => !Compressor.isTextPart c)
  | c :: rest => c :: replaceFirstText t rest

/-- The calls for a tool that fall strictly within the escalation window
(claim-side description of the pruning filter). -/
def RetryTracker.qualifyingCalls (now : Int) (calls : RetryCalls)
    (toolName : String) (config : RetryEscalationConfig) : List Int :=
  ((assocGet calls toolName).getD []).filter
    (fun ts => now - config.windowSeconds * 1000 < ts)

/-- The newline-joined text of a tool result's text parts. -/
def combinedTextOf (result : CallToolResult) : String :=
  String.intercalate "\n"
    ((result.content.filter Compressor.isTextPart).map Compressor.partText)

/-! ## Helper lemmas -/

theorem assocGet_set_self {α : Type} (m : List (String × α)) (k : String)
    (v : α) : assocGet (assocSet m k v) k = some v := by
  induction m with
  | nil => simp [assocSet, assocGet]
  | cons hd tl ih =>
    obtain ⟨k', v'⟩ := hd
    by_cases h : k' = k
    · simp [assocSet, assocGet, h]
    · simp [assocSet, assocGet, h, ih]

theorem assocGet_set_ne {α : Type} (m : List (String × α)) (k' k : String)
    (v : α) (h : k' ≠ k) :
    assocGet (assocSet m k' v) k = assocGet m k := by
  induction m with
  | nil => simp [assocSet, assocGet, h]
  | cons hd tl ih =>
    obtain ⟨k₀, v₀⟩ := hd
    by_cases h0 : k₀ = k'
    · simp [assocSet, assocGet, h0, h]
    · by_cases h1 : k₀ = k
      · simp [assocSet, assocGet, h0, h1, Ne.symm h]
      · simp [assocSet, assocGet, h0, h1, ih]

theorem assocGet_eq_none_iff {α : Type} (m : List (String × α))
    (k : String) : assocGet m k = none ↔ k ∉ m.map Prod.fst := by
  induction m with
  | nil => simp [assocGet]
  | cons hd tl ih =>
    obtain ⟨k₀, v₀⟩ := hd
    by_cases h : k₀ = k
    · simp [assocGet, h]
    · simp [assocGet, h, ih, Ne.symm h]

theorem assocGet_erase_self {α : Type} (m : List (String × α)) (k : String)
    (h : (m.map Prod.fst).Nodup) :
    assocGet (assocErase m k) k = none := by
  induction m with
  | nil => simp [assocErase, assocGet]
  | cons hd tl ih =>
    obtain ⟨k₀, v₀⟩ := hd
    simp only [List.map_cons, List.nodup_cons] at h
    by_cases h0 : k₀ = k
    · subst h0
      simp only [assocErase, if_pos rfl]
      exact (assocGet_eq_none_iff tl k₀).mpr h.1
    · simp [assocErase, assocGet, h0, ih h.2]

theorem applyOverrides_not_mem (ov : Args) (m : Args) (k : String)
    (h : k ∉ ov.map Prod.fst) :
    assocGet (SpecRouter.applyOverrides ov m) k = assocGet m k := by
  induction ov generalizing m with
  | nil => simp [SpecRouter.applyOverrides]
  | cons hd tl ih =>
    obtain ⟨k₀, v₀⟩ := hd
    simp only [List.map_cons, List.mem_cons, not_or] at h
    simp only [SpecRouter.applyOverrides, List.foldl_cons]
    have := ih (assocSet m k₀ v₀) h.2
    simp only [SpecRouter.applyOverrides] at this
    rw [this, assocGet_set_ne m k₀ k v₀ (fun he => h.1 he.symm)]

theorem applyOverrides_mem (ov : Args) (m : Args) (k : String) (v : Value)
    (hnd : (ov.map Prod.fst).Nodup) (hv : assocGet ov k = some v) :
    assocGet (SpecRouter.applyOverrides ov m) k = some v := by
  induction ov generalizing m with
  | nil => simp [assocGet] at hv
  | cons hd tl ih =>
    obtain ⟨k₀, v₀⟩ := hd
    simp only [List.map_cons, List.nodup_cons] at hnd
    simp only [SpecRouter.applyOverrides, List.foldl_cons]
    by_cases h0 : k₀ = k
    · subst h0
      simp only [assocGet, if_pos rfl] at hv
      obtain rfl : v₀ = v := Option.some.inj hv
      have hnm := applyOverrides_not_mem tl (assocSet m k₀ v₀) k₀ hnd.1
      simp only [SpecRouter.applyOverrides] at hnm ⊢
      rw [hnm, assocGet_set_self]
    · simp only [assocGet, if_neg h0] at hv
      have := ih (assocSet m k₀ v₀) hnd.2 hv
      simpa [SpecRouter.applyOverrides] using this

theorem stripReserved_goal (args : Args) :
    assocGet (SpecRouter.stripReserved args) SpecRouter.GOAL_FIELD = none := by
  induction args with
  | nil => rfl
  | cons hd tl ih =>
    obtain ⟨k₀, v₀⟩ := hd
    simp only [SpecRouter.stripReserved, List.filter_cons] at ih ⊢
    by_cases h : k₀ = SpecRouter.GOAL_FIELD
    · simp [h, ih]
    · by_cases h2 : k₀ = SpecRouter.BYPASS_FIELD
      · simp [h, h2, ih]
      · simp [h, h2, assocGet, ih]

theorem stripReserved_bypass (args : Args) :
    assocGet (SpecRouter.stripReserved args) SpecRouter.BYPASS_FIELD =
      none := by
  induction args with
  | nil => rfl
  | cons hd tl ih =>
    obtain ⟨k₀, v₀⟩ := hd
    simp only [SpecRouter.stripReserved, List.filter_cons] at ih ⊢
    by_cases h : k₀ = SpecRouter.GOAL_FIELD
    · simp [h, ih]
    · by_cases h2 : k₀ = SpecRouter.BYPASS_FIELD
      · simp [h, h2, ih]
      · simp [h, h2, assocGet, ih]

theorem isTextPart_text (s : String) :
    Compressor.isTextPart (ContentPart.text s) = true := rfl

theorem isTextPart_other (g : String) :
    Compressor.isTextPart (ContentPart.other g) = false := rfl

theorem dedupTextContent_seen (t : String) (l : List ContentPart) :
    Compressor.dedupTextContent true
      (l.map (fun c =>
        if Compressor.isTextPart c then ContentPart.text t else c)) =
    l.filter (fun c => !Compressor.isTextPart c) := by
  induction l with
  | nil => rfl
  | cons hd tl ih =>
    cases hd with
    | text s =>
        simp only [List.map_cons, List.filter_cons, isTextPart_text,
          if_true, Compressor.dedupTextContent, Bool.not_true]
        simpa using ih
    | other g =>
        simp only [List.map_cons, List.filter_cons, isTextPart_other,
          Bool.false_eq_true, if_false, Compressor.dedupTextContent,
          Bool.not_false, if_true]
        simpa using ih

theorem dedupTextContent_replace (t : String) (l : List ContentPart) :
    Compressor.dedupTextContent false
      (l.map (fun c =>
        if Compressor.isTextPart c then ContentPart.text t else c)) =
    replaceFirstText t l := by
  induction l with
  | nil => rfl
  | cons hd tl ih =>
    cases hd with
    | text s =>
        simp only [List.map_cons, isTextPart_text, if_true,
          Compressor.dedupTextContent, replaceFirstText]
        simpa using dedupTextContent_seen t tl
    | other g =>
        simp only [List.map_cons, isTextPart_other, Bool.false_eq_true,
          if_false, Compressor.dedupTextContent, replaceFirstText]
        simpa using ih

theorem replaceFirstText_of_no_text (t : String) (l : List ContentPart)
    (h : l.filter Compressor.isTextPart = []) : replaceFirstText t l = l := by
  induction l with
  | nil => rfl
  | cons hd tl ih =>
    cases hd with
    | text s => simp [List.filter_cons, isTextPart_text] at h
    | other g =>
        simp only [List.filter_cons, isTextPart_other, Bool.false_eq_true,
          if_false] at h
        simp [replaceFirstText, ih h]

/-! ## Claim theorems -/

/-- C7: `Router.callTool` never throws for upstream failures — a thrown
upstream error becomes an error-flagged result embedding the failure
message ("Error calling tool: <message>"), and an unresolved name yields
an error result containing the name verbatim — while `Router.readResource`
and `Router.getPrompt` throw when the URI/name does not resolve and
re-throw (propagate) any upstream error unchanged. -/
theorem router_error_surface :
    (∀ (ft : String → Option ToolRouting) (name : String) (args : Args),
      (ft name = none →
        Router.callTool ft name args = toolNotFoundResult name) ∧
      (∀ r e, ft name = some r → r.call r.originalName args = .error e →
        Router.callTool ft name args = toolCallErrorResult e)) ∧
    (∀ (ρ : Type) (fr : String → Option (ResourceRouting ρ)) (uri : String),
      (fr uri = none →
        Router.readResource fr uri =
          .error ("Resource '" ++ uri ++ "' not found")) ∧
      (∀ r e, fr uri = some r → r.call r.originalUri = .error e →
        Router.readResource fr uri = .error e)) ∧
    (∀ (ρ : Type) (fp : String → Option (PromptRouting ρ)) (name : String)
        (args : Option (List (String × String))),
      (fp name = none →
        Router.getPrompt fp name args =
          .error ("Prompt '" ++ name ++ "' not found")) ∧
      (∀ r e, fp name = some r → r.call r.originalName args = .error e →
        Router.getPrompt fp name args = .error e)) := by
  refine ⟨fun ft name args => ⟨fun h => ?_, fun r e hr he => ?_⟩,
    fun ρ fr uri => ⟨fun h => ?_, fun r e hr he => ?_⟩,
    fun ρ fp name args => ⟨fun h => ?_, fun r e hr he => ?_⟩⟩ <;>
    simp [Router.callTool, Router.readResource, Router.getPrompt, *]

/-- Witness for C7 at concrete routing tables and upstream failures. -/
theorem router_error_surface_witness :
    Router.callTool (fun _ => none) "t" [] = toolNotFoundResult "t" ∧
    Router.callTool
      (fun _ => some (⟨"u", "o", fun _ _ => .error "boom"⟩ : ToolRouting))
      "t" [] = toolCallErrorResult "boom" ∧
    Router.readResource (fun _ => (none : Option (ResourceRouting Nat)))
      "r" = .error ("Resource '" ++ "r" ++ "' not found") ∧
    Router.getPrompt
      (fun _ => some (⟨"u", "o", fun _ _ => .error "bad"⟩ : PromptRouting Nat))
      "p" none = .error "bad" :=
  ⟨(router_error_surface.1 (fun _ => none) "t" []).1 rfl,
    (router_error_surface.1 _ "t" []).2 _ "boom" rfl rfl,
    (router_error_surface.2.1 Nat _ "r").1 rfl,
    (router_error_surface.2.2 Nat _ "p" none).2 _ "bad" rfl rfl⟩

/-- C2: for a tool marked hidden by the policy layer, the orchestrating
`callTool` returns an error-flagged result whose text is exactly
"Error: Tool '<name>' not found", and its outcome is independent of the
Aggregator's lookup table (and hence of the upstream connection), which
is never consulted. -/
theorem callTool_hidden_tool (hidden : String → Bool)
    (ov : String → Args) (ft ft' : String → Option ToolRouting)
    (masker : Option (Args → SpecRouter.MaskOutcome))
    (name : String) (args : Args) (h : hidden name = true) :
    (SpecRouter.callTool hidden ov ft masker name args).result =
      { content :=
          [ContentPart.text ("Error: Tool '" ++ name ++ "' not found")],
        isError := true } ∧
    SpecRouter.callTool hidden ov ft masker name args =
      SpecRouter.callTool hidden ov ft' masker name args := by
  constructor <;> simp [SpecRouter.callTool, h, toolNotFoundResult]

/-- Witness for C2: a concrete hidden tool. -/
theorem callTool_hidden_tool_witness :
    (SpecRouter.callTool (fun _ => true) (fun _ => []) (fun _ => none) none
        "secret" []).result =
      { content :=
          [ContentPart.text ("Error: Tool '" ++ "secret" ++ "' not found")],
        isError := true } :=
  (callTool_hidden_tool (fun _ => true) (fun _ => []) (fun _ => none)
    (fun _ => none) none "secret" [] rfl).1

/-- C1: in the orchestrating `callTool`, the reserved `_mcpcp_goal` and
`_mcpcp_bypass` fields are removed from the forwarded arguments whatever
their values (invalid types included), and the parameter-override map is
applied after the caller-supplied values, so an override's value wins for
any shared key; concretely, caller `max_length=5000` with override
`max_length=1000` forwards `1000` upstream. -/
theorem callTool_strip_and_override :
    (∀ (args ov : Args), assocGet ov SpecRouter.GOAL_FIELD = none →
      assocGet (SpecRouter.forwardedArgs ov args) SpecRouter.GOAL_FIELD =
        none) ∧
    (∀ (args ov : Args), assocGet ov SpecRouter.BYPASS_FIELD = none →
      assocGet (SpecRouter.forwardedArgs ov args) SpecRouter.BYPASS_FIELD =
        none) ∧
    (∀ (args ov : Args) (k : String) (v : Value),
      (ov.map Prod.fst).Nodup → assocGet ov k = some v →
      assocGet (SpecRouter.forwardedArgs ov args) k = some v) ∧
    (SpecRouter.callTool (fun _ => false)
        (fun _ => [("max_length", Value.num 1000)])
        (fun _ => some (⟨"up", "orig", fun _ a =>
          .ok ⟨[], a == [("max_length", Value.num 1000)]⟩⟩ : ToolRouting))
        none "t"
        [("max_length", Value.num 5000),
         ("_mcpcp_goal", Value.num 7),
         ("_mcpcp_bypass", Value.str "yes")]).result.isError = true := by
  refine ⟨fun args ov h => ?_, fun args ov h => ?_,
    fun args ov k v hnd hv => ?_, by decide⟩
  · rw [SpecRouter.forwardedArgs,
      applyOverrides_not_mem _ _ _ ((assocGet_eq_none_iff ov _).mp h),
      stripReserved_goal]
  · rw [SpecRouter.forwardedArgs,
      applyOverrides_not_mem _ _ _ ((assocGet_eq_none_iff ov _).mp h),
      stripReserved_bypass]
  · rw [SpecRouter.forwardedArgs]
    exact applyOverrides_mem ov _ k v hnd hv

/-- Witness for C1 at concrete argument and override maps. -/
theorem callTool_strip_and_override_witness :
    assocGet (SpecRouter.forwardedArgs []
        [(SpecRouter.GOAL_FIELD, Value.num 7)]) SpecRouter.GOAL_FIELD =
      none ∧
    assocGet (SpecRouter.forwardedArgs []
        [(SpecRouter.BYPASS_FIELD, Value.str "yes")])
      SpecRouter.BYPASS_FIELD = none ∧
    assocGet (SpecRouter.forwardedArgs [("max_length", Value.num 1000)]
        [("max_length", Value.num 5000)]) "max_length" =
      some (Value.num 1000) :=
  ⟨callTool_strip_and_override.1 [(SpecRouter.GOAL_FIELD, Value.num 7)] []
      rfl,
    callTool_strip_and_override.2.1
      [(SpecRouter.BYPASS_FIELD, Value.str "yes")] [] rfl,
    callTool_strip_and_override.2.2.1 [("max_length", Value.num 5000)]
      [("max_length", Value.num 1000)] "max_length" (Value.num 1000)
      (by simp) rfl⟩

theorem retry_state_upd (now : Int) (calls : RetryCalls) (tool : String)
    (cfg : RetryEscalationConfig) (hen : cfg.enabled = true)
    (hnd : (calls.map Prod.fst).Nodup)
    (hne : assocGet calls tool ≠ some []) :
    assocGet (RetryTracker.getEscalationMultiplier now calls tool cfg).2
        tool =
      if RetryTracker.qualifyingCalls now calls tool cfg = [] then none
      else some (RetryTracker.qualifyingCalls now calls tool cfg) := by
  unfold RetryTracker.getEscalationMultiplier RetryTracker.qualifyingCalls
  rw [hen]
  simp only [Bool.not_true, Bool.false_eq_true, if_false, apply_ite Prod.snd]
  cases hst : assocGet calls tool with
  | none =>
      simp only [hst, Option.getD_none, List.filter_nil, List.length_nil,
        ne_eq, not_true_eq_false, if_false, ite_self]
      simp [hst]
  | some l =>
      have hl : l ≠ [] := fun h => hne (h ▸ hst)
      simp only [hst, Option.getD_some, ne_eq, ite_self]
      by_cases hlen : (l.filter
          (fun ts => now - cfg.windowSeconds * 1000 < ts)).length = l.length
      · have heq : l.filter (fun ts => now - cfg.windowSeconds * 1000 < ts)
            = l := (List.filter_sublist l).eq_of_length hlen
        rw [if_neg (not_not_intro hlen), hst, heq, if_neg hl]
      · by_cases hz : (l.filter
            (fun ts => now - cfg.windowSeconds * 1000 < ts)).length = 0
        · have hz0 : l.filter (fun ts => now - cfg.windowSeconds * 1000 < ts)
              = [] := List.length_eq_zero.mp hz
          rw [if_pos hlen, if_pos hz, assocGet_erase_self calls tool hnd,
            if_pos hz0]
        · have hz' : l.filter (fun ts => now - cfg.windowSeconds * 1000 < ts)
              ≠ [] := by
            intro hcon; exact hz (by simp [hcon])
          rw [if_pos hlen, if_neg hz, assocGet_set_self, if_neg hz']

/-- C4: `getEscalationMultiplier` returns 1 when escalation is disabled or
when at most one recorded call falls within the window; otherwise it
returns the linear formula 1 + (tokenMultiplier - 1) * (callCount - 1) —
with tokenMultiplier=2 the 2nd/3rd/4th calls yield 2/3/4, with
tokenMultiplier=3 the 2nd and 3rd calls yield 3 and 5 — and after a full
window elapses with no calls, the next recorded call yields 1 again. -/
theorem retry_escalation_linear :
    (∀ (now : Int) (calls : RetryCalls) (tool : String)
        (cfg : RetryEscalationConfig), cfg.enabled = false →
      (RetryTracker.getEscalationMultiplier now calls tool cfg).1 = 1) ∧
    (∀ (now : Int) (calls : RetryCalls) (tool : String)
        (cfg : RetryEscalationConfig),
      (RetryTracker.qualifyingCalls now calls tool cfg).length ≤ 1 →
      (RetryTracker.getEscalationMultiplier now calls tool cfg).1 = 1) ∧
    (∀ (now : Int) (calls : RetryCalls) (tool : String)
        (cfg : RetryEscalationConfig), cfg.enabled = true →
      2 ≤ (RetryTracker.qualifyingCalls now calls tool cfg).length →
      (RetryTracker.getEscalationMultiplier now calls tool cfg).1 =
        1 + (cfg.tokenMultiplier - 1) *
          (((RetryTracker.qualifyingCalls now calls tool cfg).length : Int)
            - 1)) ∧
    (RetryTracker.getEscalationMultiplier 2000 (RetryTracker.recordCall 2000
      (RetryTracker.recordCall 1000 [] "t") "t") "t" ⟨true, 60, 2⟩).1 = 2 ∧
    (RetryTracker.getEscalationMultiplier 3000 (RetryTracker.recordCall 3000
      (RetryTracker.recordCall 2000 (RetryTracker.recordCall 1000 [] "t")
        "t") "t") "t" ⟨true, 60, 2⟩).1 = 3 ∧
    (RetryTracker.getEscalationMultiplier 4000 (RetryTracker.recordCall 4000
      (RetryTracker.recordCall 3000 (RetryTracker.recordCall 2000
        (RetryTracker.recordCall 1000 [] "t") "t") "t") "t") "t"
      ⟨true, 60, 2⟩).1 = 4 ∧
    (RetryTracker.getEscalationMultiplier 2000 (RetryTracker.recordCall 2000
      (RetryTracker.recordCall 1000 [] "t") "t") "t" ⟨true, 60, 3⟩).1 = 3 ∧
    (RetryTracker.getEscalationMultiplier 3000 (RetryTracker.recordCall 3000
      (RetryTracker.recordCall 2000 (RetryTracker.recordCall 1000 [] "t")
        "t") "t") "t" ⟨true, 60, 3⟩).1 = 5 ∧
    (RetryTracker.getEscalationMultiplier 62000
      (RetryTracker.recordCall 62000 (RetryTracker.recordCall 1000 [] "t")
        "t") "t" ⟨true, 60, 2⟩).1 = 1 := by
  refine ⟨fun now calls tool cfg h => ?_, fun now calls tool cfg h => ?_,
    fun now calls tool cfg hen h => ?_, by decide, by decide, by decide,
    by decide, by decide, by decide⟩
  · simp [RetryTracker.getEscalationMultiplier, h]
  · by_cases hen : cfg.enabled
    · unfold RetryTracker.qualifyingCalls at h
      have hc : ((((assocGet calls tool).getD []).filter
          (fun ts => now - cfg.windowSeconds * 1000 < ts)).length : Int)
          ≤ 1 := by exact_mod_cast h
      simp [RetryTracker.getEscalationMultiplier, hen, hc]
    · simp [RetryTracker.getEscalationMultiplier, hen]
  · unfold RetryTracker.qualifyingCalls at h ⊢
    have hc : ¬ ((((assocGet calls tool).getD []).filter
        (fun ts => now - cfg.windowSeconds * 1000 < ts)).length : Int)
        ≤ 1 := by omega
    simp [RetryTracker.getEscalationMultiplier, hen, hc]

/-- Witness for C4 at concrete trackers and configurations. -/
theorem retry_escalation_linear_witness :
    (RetryTracker.getEscalationMultiplier 0 [] "t" ⟨false, 60, 2⟩).1 = 1 ∧
    (RetryTracker.getEscalationMultiplier 5000 [("t", [5000])] "t"
      ⟨true, 60, 2⟩).1 = 1 ∧
    (RetryTracker.getEscalationMultiplier 2000 [("t", [1000, 2000])] "t"
      ⟨true, 60, 2⟩).1 = 2 := by
  refine ⟨retry_escalation_linear.1 0 [] "t" ⟨false, 60, 2⟩ rfl,
    retry_escalation_linear.2.1 5000 [("t", [5000])] "t" ⟨true, 60, 2⟩
      (by decide), ?_⟩
  have h2 := retry_escalation_linear.2.2.1 2000 [("t", [1000, 2000])] "t"
    ⟨true, 60, 2⟩ rfl (by decide)
  rw [h2]; decide

/-- C10: the window boundary is strict — a timestamp exactly
windowSeconds*1000 before now never qualifies — and the call rewrites the
stored state to exactly the qualifying timestamps, deleting the tool's
entry when none qualify, so `getStats` afterwards reports only in-window
calls. -/
theorem retry_window_strict_boundary :
    (∀ (now : Int) (calls : RetryCalls) (tool : String)
        (cfg : RetryEscalationConfig),
      (now - cfg.windowSeconds * 1000) ∉
        RetryTracker.qualifyingCalls now calls tool cfg) ∧
    (∀ (now : Int) (calls : RetryCalls) (tool : String)
        (cfg : RetryEscalationConfig), cfg.enabled = true →
      (calls.map Prod.fst).Nodup → assocGet calls tool ≠ some [] →
      assocGet (RetryTracker.getEscalationMultiplier now calls tool cfg).2
          tool =
        if RetryTracker.qualifyingCalls now calls tool cfg = [] then none
        else some (RetryTracker.qualifyingCalls now calls tool cfg)) ∧
    RetryTracker.getStats
      ((RetryTracker.getEscalationMultiplier 70000
        [("t", [1000, 2000, 70000])] "t" ⟨true, 60, 2⟩).2) = (1, 1) ∧
    RetryTracker.getStats
      ((RetryTracker.getEscalationMultiplier 70000 [("t", [10000])] "t"
        ⟨true, 60, 2⟩).2) = (0, 0) := by
  refine ⟨fun now calls tool cfg => ?_, retry_state_upd, by decide,
    by decide⟩
  simp [RetryTracker.qualifyingCalls, List.mem_filter]

/-- Witness for C10 at a concrete tracker state. -/
theorem retry_window_strict_boundary_witness :
    ((70000 : Int) - 60 * 1000) ∉
      RetryTracker.qualifyingCalls 70000 [("t", [10000])] "t"
        ⟨true, 60, 2⟩ ∧
    assocGet (RetryTracker.getEscalationMultiplier 70000
        [("t", [1000, 2000, 70000])] "t" ⟨true, 60, 2⟩).2 "t" =
      if RetryTracker.qualifyingCalls 70000 [("t", [1000, 2000, 70000])]
          "t" ⟨true, 60, 2⟩ = [] then none
      else some (RetryTracker.qualifyingCalls 70000
        [("t", [1000, 2000, 70000])] "t" ⟨true, 60, 2⟩) :=
  ⟨retry_window_strict_boundary.1 70000 [("t", [10000])] "t" ⟨true, 60, 2⟩,
    retry_window_strict_boundary.2.1 70000 [("t", [1000, 2000, 70000])]
      "t" ⟨true, 60, 2⟩ rfl (by decide) (by decide)⟩

/-- C3: for input at or under the token threshold, `compress` returns
`wasCompressed=false` with `compressed` equal to the original and
`compressedTokens` equal to `originalTokens`, and its outcome is
independent of the compression model (which is never invoked). -/
theorem compress_under_threshold (encode : Tokenizer)
    (model model' : ModelClient) (config : CompressionConfig)
    (content : String) (n : Nat)
    (h : Compressor.countTokens encode content = .ok n)
    (h2 : n ≤ config.tokenThreshold) :
    Compressor.compress encode model config content =
      .ok { original := content, compressed := content,
            strategy := .default, originalTokens := n,
            compressedTokens := n, wasCompressed := false } ∧
    Compressor.compress encode model config content =
      Compressor.compress encode model' config content := by
  have key : ∀ m : ModelClient, Compressor.compress encode m config content
      = .ok { original := content, compressed := content,
              strategy := .default, originalTokens := n,
              compressedTokens := n, wasCompressed := false } := by
    intro m
    unfold Compressor.compress
    rw [h]
    simp [h2]
  exact ⟨key model, (key model).trans (key model').symm⟩

/-- Witness for C3 at a concrete tokenizer and input. -/
theorem compress_under_threshold_witness :
    Compressor.compress (fun s => .ok (List.replicate s.length 0))
        (fun _ _ => .ok "m") ⟨100, some 10⟩ "hi" =
      .ok { original := "hi", compressed := "hi", strategy := .default,
            originalTokens := 2, compressedTokens := 2,
            wasCompressed := false } :=
  (compress_under_threshold (fun s => .ok (List.replicate s.length 0))
    (fun _ _ => .ok "m") (fun _ _ => .ok "m") ⟨100, some 10⟩ "hi" 2 rfl
    (by decide)).1

/-- C6: for input over the threshold, a compression-model failure is
caught — `compress` returns the original content with
`wasCompressed=false` and `compressedTokens = originalTokens` — and, as
long as the initial token count succeeds, `compress` never propagates a
failure to its caller. -/
theorem compress_failure_recovery (encode : Tokenizer)
    (model : ModelClient) (config : CompressionConfig) (content : String)
    (n : Nat) (h : Compressor.countTokens encode content = .ok n) :
    ((config.tokenThreshold < n → ∀ e,
      model (getCompressionPrompt (detectStrategy content) content
        config.maxOutputTokens none none) config.maxOutputTokens =
        .error e →
      Compressor.compress encode model config content =
        .ok { original := content, compressed := content,
              strategy := detectStrategy content, originalTokens := n,
              compressedTokens := n, wasCompressed := false }) ∧
     ∃ r, Compressor.compress encode model config content = .ok r) := by
  constructor
  · intro hlt e he
    unfold Compressor.compress
    rw [h]
    dsimp only
    rw [if_neg (not_le.mpr hlt), he]
    rfl
  · unfold Compressor.compress
    rw [h]
    dsimp only
    by_cases ht : n ≤ config.tokenThreshold
    · rw [if_pos ht]; exact ⟨_, rfl⟩
    · rw [if_neg ht]
      cases hm : model (getCompressionPrompt (detectStrategy content)
          content config.maxOutputTokens none none) config.maxOutputTokens
          with
      | error e => exact ⟨_, rfl⟩
      | ok text =>
        cases hct : Compressor.countTokens encode text with
        | error e2 => simp [bind, Except.bind, hct, Functor.map, Except.map]
        | ok m =>
            simp [bind, Except.bind, hct, Functor.map, Except.map, pure,
              Except.pure]

/-- Witness for C6: a concrete model failure over the threshold. -/
theorem compress_failure_recovery_witness :
    Compressor.compress (fun s => .ok (List.replicate s.length 0))
        (fun _ _ => .error "model down") ⟨1, some 10⟩ "hello" =
      .ok { original := "hello", compressed := "hello",
            strategy := detectStrategy "hello", originalTokens := 5,
            compressedTokens := 5, wasCompressed := false } :=
  (compress_failure_recovery (fun s => .ok (List.replicate s.length 0))
    (fun _ _ => .error "model down") ⟨1, some 10⟩ "hello" 5 rfl).1
    (by decide) "model down" rfl

/-- C9 (amended): `countTokens` returns the tokenizer's token count, and
propagates a tokenizer failure to its caller — there is no length/4
heuristic fallback in the implementation. -/
theorem countTokens_tokenizer_result (encode : Tokenizer) (text : String) :
    (∀ toks, encode text = .ok toks →
      Compressor.countTokens encode text = .ok toks.length) ∧
    (∀ e, encode text = .error e →
      Compressor.countTokens encode text = .error e) := by
  constructor <;> intro x h <;> simp [Compressor.countTokens, h, Except.map]

/-- Witness for the amended C9 at concrete tokenizers. -/
theorem countTokens_tokenizer_result_witness :
    Compressor.countTokens (fun _ => .ok [7, 8, 9]) "abc" = .ok 3 ∧
    Compressor.countTokens (fun _ => .error "boom") "abc" =
      .error "boom" :=
  ⟨(countTokens_tokenizer_result (fun _ => .ok [7, 8, 9]) "abc").1
      [7, 8, 9] rfl,
    (countTokens_tokenizer_result (fun _ => .error "boom") "abc").2
      "boom" rfl⟩

/-- Counterexample for C9 as stated: when the tokenizer throws on a
four-character input, `countTokens` propagates the error instead of
returning the heuristic 4/4 = 1. -/
theorem countTokens_fallback_counterexample :
    Compressor.countTokens (fun _ => .error "tokenizer failure") "abcd" =
      .error "tokenizer failure" ∧
    Compressor.countTokens (fun _ => .error "tokenizer failure") "abcd" ≠
      .ok 1 := by
  constructor
  · rfl
  · intro hcon
    exact Except.noConfusion hcon

/-- C5: strategy detection returns `json` on every string the JSON parser
accepts, `code` on every rejected string matching at least two code
heuristics, `default` otherwise; the malformed JSON input
`{"key": "value"` (missing closing brace) classifies as `default`. -/
theorem detectStrategy_classification :
    (∀ s, jsonParses s = true → detectStrategy s = .json) ∧
    (∀ s, jsonParses s = false → 2 ≤ codePatternMatchCount s →
      detectStrategy s = .code) ∧
    (∀ s, jsonParses s = false → codePatternMatchCount s < 2 →
      detectStrategy s = .default) ∧
    detectStrategy "\x7b\"key\": \"value\"" = .default := by
  refine ⟨fun s h => ?_, fun s h h2 => ?_, fun s h h2 => ?_, by decide⟩
  · simp [detectStrategy, h]
  · simp [detectStrategy, h, isCodeLike, h2]
  · simp [detectStrategy, h, isCodeLike, Nat.not_le.mpr h2]

/-- Witness for C5 at concrete JSON, code-like and plain inputs. -/
theorem detectStrategy_classification_witness :
    detectStrategy "[1, 2, 3]" = .json ∧
    detectStrategy "import fs from \"fs\";\nexport const x = 1;" = .code ∧
    detectStrategy "plain text" = .default :=
  ⟨detectStrategy_classification.1 "[1, 2, 3]" (by decide),
    detectStrategy_classification.2.1
      "import fs from \"fs\";\nexport const x = 1;" (by decide) (by decide),
    detectStrategy_classification.2.2.1 "plain text" (by decide)
      (by decide)⟩

/-- C8 (amended): `compressToolResult` joins the text parts with
newlines; when that text is over the threshold and compression succeeds,
the first text part becomes exactly the compressed text (no annotation),
later text parts are dropped, and non-text parts pass through in place;
with no text parts, at-or-under-threshold text, or failed compression,
the result is unchanged. -/
theorem compressToolResult_behavior (encode : Tokenizer)
    (model : ModelClient) (config : CompressionConfig)
    (result : CallToolResult) :
    (result.content.filter Compressor.isTextPart = [] →
      Compressor.compressToolResult encode model config result =
        .ok result) ∧
    (∀ n, Compressor.countTokens encode (combinedTextOf result) = .ok n →
      n ≤ config.tokenThreshold →
      Compressor.compressToolResult encode model config result =
        .ok result) ∧
    (∀ n c, Compressor.countTokens encode (combinedTextOf result) = .ok n →
      config.tokenThreshold < n →
      Compressor.compress encode model config (combinedTextOf result) =
        .ok c →
      c.wasCompressed = false →
      Compressor.compressToolResult encode model config result =
        .ok result) ∧
    (∀ n c, Compressor.countTokens encode (combinedTextOf result) = .ok n →
      config.tokenThreshold < n →
      Compressor.compress encode model config (combinedTextOf result) =
        .ok c →
      c.wasCompressed = true →
      Compressor.compressToolResult encode model config result =
        .ok { result with
              content := replaceFirstText c.compressed result.content }) := by
  refine ⟨fun h => ?_, fun n hn hle => ?_, fun n c hn hlt hc hw => ?_,
    fun n c hn hlt hc hw => ?_⟩
  · unfold Compressor.compressToolResult
    rw [h]
    rfl
  · unfold Compressor.compressToolResult
    unfold combinedTextOf at hn
    by_cases he : (result.content.filter Compressor.isTextPart).isEmpty
    · simp [he]
    · simp only [Bool.not_eq_true] at he
      simp only [he, Bool.false_eq_true, if_false]
      rw [hn]
      dsimp only
      rw [if_pos hle]
  · unfold Compressor.compressToolResult
    unfold combinedTextOf at hn hc
    by_cases he : (result.content.filter Compressor.isTextPart).isEmpty
    · simp [he]
    · simp only [Bool.not_eq_true] at he
      simp only [he, Bool.false_eq_true, if_false]
      rw [hn]
      dsimp only
      rw [if_neg (not_le.mpr hlt), hc]
      dsimp only
      rw [hw]
      rfl
  · unfold Compressor.compressToolResult
    unfold combinedTextOf at hn hc
    by_cases he : (result.content.filter Compressor.isTextPart).isEmpty
    · have hemp : result.content.filter Compressor.isTextPart = [] := by
        simpa using he
      rw [replaceFirstText_of_no_text c.compressed result.content hemp]
      simp [he]
    · simp only [Bool.not_eq_true] at he
      simp only [he, Bool.false_eq_true, if_false]
      rw [hn]
      dsimp only
      rw [if_neg (not_le.mpr hlt), hc]
      dsimp only
      rw [hw]
      simp only [Bool.not_true, Bool.false_eq_true, if_false]
      rw [dedupTextContent_replace]

/-- Witness for the amended C8 at a concrete mixed tool result. -/
theorem compressToolResult_behavior_witness :
    Compressor.compressToolResult (fun s => .ok (List.replicate s.length 0))
        (fun _ _ => .ok "ok") ⟨1, some 10⟩
        ⟨[ContentPart.text "aa", ContentPart.other "img",
          ContentPart.text "bb"], false⟩ =
      .ok { content := replaceFirstText "ok"
              [ContentPart.text "aa", ContentPart.other "img",
               ContentPart.text "bb"],
            isError := false } := by
  exact (compressToolResult_behavior
      (fun s => .ok (List.replicate s.length 0)) (fun _ _ => .ok "ok")
      ⟨1, some 10⟩
      ⟨[ContentPart.text "aa", ContentPart.other "img",
        ContentPart.text "bb"], false⟩).2.2.2 5
    ⟨"aa\nbb", "ok", .default, 5, 2, true⟩ rfl (by decide) rfl rfl

/-- Counterexample for C8 as stated: over the threshold with successful
compression, the first text part is exactly the compressed model output
with no "compressed from X to Y tokens" annotation. -/
theorem compressToolResult_no_marker :
    Compressor.compressToolResult
        (fun s => .ok (List.replicate s.length 0))
        (fun _ _ => .ok "ok")
        ⟨1, some 10⟩
        ⟨[ContentPart.text "hello", ContentPart.other "img",
          ContentPart.text "world"], false⟩ =
      .ok ⟨[ContentPart.text "ok", ContentPart.other "img"], false⟩ ∧
    strContains "ok" "compressed from" = false := by
  constructor
  · rfl
  · decide
